import Mathlib

/-!
Verification development for the invoice extraction service:
a shallow embedding of the field-extraction / validation pipeline
(`backend/models/invoice_model.py`), the sliding-window rate limiter
(`backend/utils/rate_limiter.py`) and the duplicate detector
(`backend/utils/duplicate_detector.py`), together with proofs about the
specified behaviour.  Time values and monetary amounts are modelled as
rationals (the Python code works with IEEE floats, but every quantity the
theorems touch is an exact decimal, where the two agree).
-/

set_option maxHeartbeats 2000000

set_option allowUnsafeReducibility true

attribute [semireducible] Rat.add Rat.sub Rat.mul Rat.inv Rat.ofScientific

/-! ## Python-style helpers -/

/-! ## Rate limiter (`backend/utils/rate_limiter.py`, class `InMemoryRateLimiter`)

The limiter keeps, per client identity, a deque of request timestamps.  We
model one identity's deque as a `List ℚ` of timestamps (oldest first) and
pass the current time `now` explicitly.  `max_requests` and the window
length in seconds are the constructor parameters (defaults 10 and
24*3600). -/

/-! ## Duplicate detector (`backend/utils/duplicate_detector.py`, class `DuplicateDetector`)

The detector keeps three dictionaries: `processed_invoices` (invoice number
→ stored entry), `invoice_hashes` (content hash → invoice number) and
`client_invoices` (client identity → set of invoice numbers).  Python
dictionaries are modelled as association lists with unique keys where
insertion updates in place and otherwise appends; the `client_invoices`
sets are lists with membership-checked insertion.  The SHA-256 digest of
the document bytes is modelled as the byte list itself (an injective
content function, the collision-freeness the code assumes).  Timestamps
are integral seconds (`time.time()` returns a float; only order matters
here).  The stored invoice payload is an arbitrary type `D` together with
the key extractor `getKey` standing for
`invoice_data.get('extracted_data', {}).get('invoice_number')`. -/

/-! ## Invoice model (`backend/models/invoice_model.py`, class `InvoiceModel`)

Text is modelled as `List Char`.  The ASCII fragments of Python's
`str.lower`, `str.upper`, `str.title`, `str.strip`, `str.split` and `float`
are embedded below; the invoice pipeline only ever feeds them ASCII.  The
regular expressions of the pattern table are embedded as an explicit syntax
tree with a backtracking matcher whose alternative/greediness priority
follows Python's `re` (leftmost start position, earlier alternative first,
greedy repetition longest-first, lazy shortest-first). -/

/-! ### Regular expression engine

`re.search` with the `IGNORECASE | MULTILINE` flags over the lower-cased
text, restricted to the constructs the pattern table uses: literals,
character classes (`\s`, `\d`, ranges, single characters), `.`, sequencing,
alternation, greedy/lazy repetition, one capturing group, `^` and `$`.
Matching is continuation-passing backtracking with Python's priority
order; `fuel` bounds the call depth (the supplied fuel is always
sufficient: every repetition body consumes at least one character). -/

/-! ### The pattern table (`InvoiceModel.__init__`)

Helper constructors mirror the concrete syntax: `rs` sequences, `alts`
prioritised alternation, `rlit` a literal word, `rplus`/`rplusLazy` `+`
and `+?`, `ropt` `?`, `rstar` `*`, `repn` `{n}` and `repRange` `{m,n}`. -/

/-! ### Field extraction (`InvoiceModel.extract_fields`,
`InvoiceModel.extract_line_items`) -/

/-! ### Validation and confidence
(`InvoiceModel.validate_field`, `validate_extraction`,
`validate_mathematics`, `calculate_overall_confidence`,
`get_missing_required_fields`) -/

/-- Python `min(a, b)` on two rationals: returns the first argument when it
is not larger. -/
def pymin (a b : ℚ) : ℚ := if a ≤ b then a else b

/-- Python `max(a, b)` on two integers: returns the second argument when it
is strictly larger. -/
def pymax (a b : ℤ) : ℤ := if a < b then b else a

/-- Python `abs` on a rational. -/
def pyabs (q : ℚ) : ℚ := if q < 0 then -q else q

/-- The pruning loop `while client_requests and client_requests[0] < now -
window_seconds: popleft()`: removes the longest prefix of timestamps older
than the window. -/
def prune (w now : ℚ) : List ℚ → List ℚ
  | [] => []
  | t :: r => if t < now - w then prune w now r else t :: r

/-- `InMemoryRateLimiter.is_allowed`: prune, deny when the live count has
reached `max_requests`, otherwise record `now` and allow.  The error
message string returned alongside the boolean is omitted. -/
def is_allowed (m : ℕ) (w : ℚ) (q : List ℚ) (now : ℚ) : Bool × List ℚ :=
  let p := prune w now q
  if m ≤ p.length then (false, p) else (true, p ++ [now])

/-- `InMemoryRateLimiter.get_remaining_requests`: prunes exactly like
`is_allowed`, then returns `max(0, max_requests - len(...))` (and the
mutated deque). -/
def get_remaining (m : ℕ) (w : ℚ) (q : List ℚ) (now : ℚ) : ℤ × List ℚ :=
  let p := prune w now q
  (pymax 0 ((m : ℤ) - p.length), p)

/-- `InMemoryRateLimiter.get_reset_time`: returns `client_requests[0] +
window_seconds`, or `None` for an empty deque.  Note that this accessor
performs no pruning. -/
def get_reset_time (w : ℚ) (q : List ℚ) : Option ℚ :=
  match q with
  | [] => none
  | t :: _ => some (t + w)

/-- A sequence of admission checks at the given times, threading the deque. -/
def runAdmits (m : ℕ) (w : ℚ) (q : List ℚ) : List ℚ → List Bool × List ℚ
  | [] => ([], q)
  | t :: rest =>
    ((is_allowed m w q t).1 :: (runAdmits m w (is_allowed m w q t).2 rest).1,
     (runAdmits m w (is_allowed m w q t).2 rest).2)

/-- Entry of `processed_invoices`: the dict
`{'data': ..., 'timestamp': ..., 'client_ip': ..., 'content_hash': ...}`. -/
structure Entry (D : Type) where
  data : D
  timestamp : ℤ
  client_ip : String
  content_hash : List ℕ
deriving DecidableEq

/-- The three dictionaries of a `DuplicateDetector` instance. -/
structure DupState (D : Type) where
  processed_invoices : List (String × Entry D)
  invoice_hashes : List (List ℕ × String)
  client_invoices : List (String × List String)
deriving DecidableEq

/-- Python dict assignment `d[k] = v`: update in place, else append. -/
def dinsert {κ α : Type} [BEq κ] (l : List (κ × α)) (k : κ) (v : α) : List (κ × α) :=
  if l.any (fun p => p.1 == k) then l.map (fun p => if p.1 == k then (k, v) else p)
  else l ++ [(k, v)]

/-- Python dict deletion `del d[k]` / `d.pop(k)` (state effect). -/
def dremove {κ α : Type} [BEq κ] (l : List (κ × α)) (k : κ) : List (κ × α) :=
  l.filter (fun p => !(p.1 == k))

/-- Python `set.add`. -/
def saddElem (s : List String) (x : String) : List String :=
  if s.contains x then s else s ++ [x]

/-- `DuplicateDetector.generate_content_hash`: `hashlib.sha256(file_bytes)`,
modelled as the identity on byte lists (an injective digest). -/
def generate_content_hash (b : List ℕ) : List ℕ := b

/-- Python truthiness of the extracted invoice number (`None` and the empty
string are falsy). -/
def truthyK : Option String → Bool
  | none => false
  | some s => !(s == "")

/-- Keys of the entries older than the retention cutoff, in dict order:
the `expired_invoices` list of `_cleanup_old_entries`. -/
def expiredKeys {D : Type} (ret now : ℤ) : List (String × Entry D) → List String
  | [] => []
  | p :: r =>
    if p.2.timestamp < now - ret then p.1 :: expiredKeys ret now r
    else expiredKeys ret now r

/-- Removal of one expired entry: pop it from `processed_invoices`, drop its
content hash from `invoice_hashes` when present, discard its number from
the owner's `client_invoices` set, dropping the owner when the set becomes
empty. -/
def cleanupOne {D : Type} (s : DupState D) (n : String) : DupState D :=
  match s.processed_invoices.lookup n with
  | none => s
  | some e =>
    let p := dremove s.processed_invoices n
    let h :=
      if (s.invoice_hashes.lookup e.content_hash).isSome then
        dremove s.invoice_hashes e.content_hash
      else s.invoice_hashes
    let ci :=
      match s.client_invoices.lookup e.client_ip with
      | none => s.client_invoices
      | some cs =>
        let cs2 := cs.filter (fun x => !(x == n))
        if cs2.isEmpty then dremove s.client_invoices e.client_ip
        else dinsert s.client_invoices e.client_ip cs2
    ⟨p, h, ci⟩

/-- `DuplicateDetector._cleanup_old_entries`. -/
def _cleanup_old_entries {D : Type} (ret now : ℤ) (s : DupState D) : DupState D :=
  (expiredKeys ret now s.processed_invoices).foldl cleanupOne s

/-- `DuplicateDetector.check_duplicate`: evict expired entries, then check
by content hash (any identity), then by invoice number scoped to the same
identity, else store (when a truthy invoice number exists) and report
non-duplicate.  Returns the `(is_duplicate, previous_data)` pair and the
updated state. -/
def check_duplicate {D : Type} (ret now : ℤ) (getKey : D → Option String)
    (client_ip : String) (file_bytes : List ℕ) (invoice_data : D)
    (s0 : DupState D) : (Bool × Option (Entry D)) × DupState D :=
  let s := _cleanup_old_entries ret now s0
  let content_hash := generate_content_hash file_bytes
  let invoice_number := getKey invoice_data
  let store : (Bool × Option (Entry D)) × DupState D :=
    if truthyK invoice_number then
      let n := invoice_number.getD ""
      let e : Entry D := ⟨invoice_data, now, client_ip, content_hash⟩
      ((false, none),
        ⟨dinsert s.processed_invoices n e,
         dinsert s.invoice_hashes content_hash n,
         dinsert s.client_invoices client_ip
           (saddElem ((s.client_invoices.lookup client_ip).getD []) n)⟩)
    else ((false, none), s)
  match (s.invoice_hashes.lookup content_hash).bind
      (fun prev => s.processed_invoices.lookup prev) with
  | some e => ((true, some e), s)
  | none =>
    if truthyK invoice_number &&
        ((s.client_invoices.lookup client_ip).getD []).contains
          (invoice_number.getD "") then
      match s.processed_invoices.find?
          (fun p => p.1 == invoice_number.getD "" && p.2.client_ip == client_ip) with
      | some p => ((true, some p.2), s)
      | none => store
    else store

/-- Key extractor for the C4 scenario: every payload carries invoice
number "N". -/
def kfC4 : ℕ → Option String := fun _ => some "N"

/-- Key extractor for the C5 scenario: payload 1 carries invoice number
"N", every other payload has no business key. -/
def kfC5 : ℕ → Option String := fun n => if n == 1 then some "N" else none

/-- ASCII letter test (Python's "cased" test, restricted to ASCII). -/
def isAlphaAscii (c : Char) : Bool :=
  (decide (97 ≤ c.toNat) && decide (c.toNat ≤ 122)) ||
    (decide (65 ≤ c.toNat) && decide (c.toNat ≤ 90))

/-- Python whitespace (`str.strip` / `str.split` default separators). -/
def isPySpace (c : Char) : Bool :=
  c == ' ' || c == '\t' || c == '\n' || c == '\r' || c == '\x0B' || c == '\x0C'

/-- Python `str.strip()`. -/
def pyStrip (l : List Char) : List Char :=
  ((l.dropWhile isPySpace).reverse.dropWhile isPySpace).reverse

/-- `str.title` worker; the flag records whether the previous character was
a (ASCII) letter. -/
def titleAux : Bool → List Char → List Char
  | _, [] => []
  | prev, c :: r =>
    if isAlphaAscii c then
      (if prev then Char.toLower c else Char.toUpper c) :: titleAux true r
    else c :: titleAux false r

/-- Python `str.title()` (ASCII fragment). -/
def pyTitle (l : List Char) : List Char := titleAux false l

/-- Digit run to a natural number, most significant first. -/
def digsValAux : ℕ → List Char → ℕ
  | acc, [] => acc
  | acc, c :: r => digsValAux (acc * 10 + (c.toNat - 48)) r

/-- Python `float(str)` on the finite decimal/scientific forms:
optional surrounding whitespace, optional sign, digits with an optional
point, optional exponent.  (`inf`/`nan`, underscore separators and
non-ASCII digits are outside the model; the pipeline never produces
them.) -/
def parseFloat (l0 : List Char) : Option ℚ :=
  let l1 := pyStrip l0
  let sl : ℚ × List Char :=
    match l1 with
    | '+' :: r => (1, r)
    | '-' :: r => (-1, r)
    | r => (1, r)
  let d1 := sl.2.takeWhile Char.isDigit
  let l3 := sl.2.dropWhile Char.isDigit
  let dl : Option (List Char) × List Char :=
    match l3 with
    | '.' :: r => (some (r.takeWhile Char.isDigit), r.dropWhile Char.isDigit)
    | r => (none, r)
  let digitsOk : Bool :=
    !d1.isEmpty || (match dl.1 with | some ds => !ds.isEmpty | none => false)
  if digitsOk then
    let frac : ℚ :=
      match dl.1 with
      | some ds => (digsValAux 0 ds : ℚ) / (10 : ℚ) ^ ds.length
      | none => 0
    let mant : ℚ := sl.1 * ((digsValAux 0 d1 : ℚ) + frac)
    match dl.2 with
    | [] => some mant
    | e :: r =>
      if e == 'e' || e == 'E' then
        let el : ℤ × List Char :=
          match r with
          | '+' :: rr => (1, rr)
          | '-' :: rr => (-1, rr)
          | rr => (1, rr)
        let d3 := el.2.takeWhile Char.isDigit
        let r3 := el.2.dropWhile Char.isDigit
        if !d3.isEmpty && r3.isEmpty then
          some (mant * (10 : ℚ) ^ (el.1 * (digsValAux 0 d3 : ℕ)))
        else none
      else none
  else none

/-- `InvoiceModel.clean_number`: falsy input gives `None`; otherwise strip
`$` and `,` everywhere (`re.sub(r'[\$,]', '', value)`) and parse as float,
`None` on failure (the `ValueError` is caught). -/
def clean_number (v : List Char) : Option ℚ :=
  if v.isEmpty then none
  else parseFloat (v.filter (fun c => !(c == '$' || c == ',')))

/-- One item of a character class. -/
inductive CCItem where
  | ch (c : Char)
  | range (lo hi : Char)
  | ws
  | dig

/-- Does a class item accept a character? -/
def ccHit : CCItem → Char → Bool
  | .ch a, c => a == c
  | .range lo hi, c => decide (lo ≤ c) && decide (c ≤ hi)
  | .ws, c => isPySpace c
  | .dig, c => c.isDigit

/-- Class match; under `IGNORECASE` a character also matches via its other
case. -/
def ccMatch (ic : Bool) (items : List CCItem) (c : Char) : Bool :=
  items.any (fun it => ccHit it c) ||
    (ic && (items.any (fun it => ccHit it (Char.toLower c)) ||
            items.any (fun it => ccHit it (Char.toUpper c))))

/-- Literal match, case-folding under `IGNORECASE`. -/
def litEq (ic : Bool) (a c : Char) : Bool :=
  if ic then Char.toLower a == Char.toLower c else a == c

/-- Regular expression syntax tree. -/
inductive RE where
  | eps
  | lit (c : Char)
  | cls (items : List CCItem)
  | dot
  | seq (a b : RE)
  | alt (a b : RE)
  | star (greedy : Bool) (a : RE)
  | grp (a : RE)
  | bol
  | eol

/-- Size of a pattern, used for the fuel bound. -/
def reSize : RE → ℕ
  | .eps => 1
  | .lit _ => 1
  | .cls _ => 1
  | .dot => 1
  | .seq a b => reSize a + reSize b + 1
  | .alt a b => reSize a + reSize b + 1
  | .star _ a => reSize a + 1
  | .grp a => reSize a + 1
  | .bol => 1
  | .eol => 1

/-- Matcher context: subject text and the `IGNORECASE`/`MULTILINE` flags. -/
structure MCtx where
  txt : List Char
  ic : Bool
  ml : Bool

/-- Backtracking matcher.  `i` is the current position, `g` the span of
group 1 once closed, `k` the continuation; the result is `none` on failure
and otherwise the group-1 span of the first match in priority order. -/
def mre (ctx : MCtx) : ℕ → RE → ℕ → Option (ℕ × ℕ) →
    (ℕ → Option (ℕ × ℕ) → Option (Option (ℕ × ℕ))) → Option (Option (ℕ × ℕ))
  | 0, _, _, _, _ => none
  | fuel + 1, r, i, g, k =>
    match r with
    | .eps => k i g
    | .lit c =>
      match ctx.txt.get? i with
      | some d => if litEq ctx.ic c d then k (i + 1) g else none
      | none => none
    | .cls items =>
      match ctx.txt.get? i with
      | some d => if ccMatch ctx.ic items d then k (i + 1) g else none
      | none => none
    | .dot =>
      match ctx.txt.get? i with
      | some d => if d == '\n' then none else k (i + 1) g
      | none => none
    | .seq a b => mre ctx fuel a i g (fun j g2 => mre ctx fuel b j g2 k)
    | .alt a b =>
      match mre ctx fuel a i g k with
      | some res => some res
      | none => mre ctx fuel b i g k
    | .star greedy a =>
      if greedy then
        match mre ctx fuel a i g
            (fun j g2 => if i < j then mre ctx fuel (.star true a) j g2 k else none) with
        | some res => some res
        | none => k i g
      else
        match k i g with
        | some res => some res
        | none =>
          mre ctx fuel a i g
            (fun j g2 => if i < j then mre ctx fuel (.star false a) j g2 k else none)
    | .grp a => mre ctx fuel a i g (fun j _ => k j (some (i, j)))
    | .bol =>
      if i == 0 || (ctx.ml && ctx.txt.get? (i - 1) == some '\n') then k i g else none
    | .eol =>
      if i == ctx.txt.length || (ctx.ml && ctx.txt.get? i == some '\n') then k i g
      else none

/-- Fuel bound: generously larger than the deepest possible call chain. -/
def reFuel (r : RE) (n : ℕ) : ℕ := (n + 2) * (reSize r + 4)

/-- `re.search`: try every start position left to right, return the group-1
span of the first match (`some none` marks a match by a pattern with no
group, where `match.group(1)` would raise). -/
def research (ic ml : Bool) (r : RE) (s : List Char) : Option (Option (ℕ × ℕ)) :=
  (List.range (s.length + 1)).findSome?
    (fun i => mre ⟨s, ic, ml⟩ (reFuel r s.length) r i none (fun _ g => some g))

/-- `re.match`: anchored at position 0 only; reports whether a match
exists. -/
def rematch (ic ml : Bool) (r : RE) (s : List Char) : Bool :=
  (mre ⟨s, ic, ml⟩ (reFuel r s.length) r 0 none (fun _ g => some g)).isSome

def rs : List RE → RE
  | [] => .eps
  | [r] => r
  | r :: rest => .seq r (rs rest)

def alts : List RE → RE
  | [] => .eps
  | [r] => r
  | r :: rest => .alt r (alts rest)

def rlit (s : String) : RE := rs (s.data.map RE.lit)

def rplus (r : RE) : RE := .seq r (.star true r)

def rplusLazy (r : RE) : RE := .seq r (.star false r)

def ropt (r : RE) : RE := .alt r .eps

def rstar (r : RE) : RE := .star true r

def repn : ℕ → RE → RE
  | 0, _ => .eps
  | n + 1, r => .seq r (repn n r)

def repRange (lo hi : ℕ) (r : RE) : RE :=
  rs (List.replicate lo r ++ List.replicate (hi - lo) (ropt r))

/-- `[A-Z]`. -/
def AZ : CCItem := .range 'A' 'Z'

/-- `[a-z]`. -/
def az : CCItem := .range 'a' 'z'

/-- `[0-9]`. -/
def d09 : CCItem := .range '0' '9'

/-- `\s*`. -/
def wsStar : RE := rstar (.cls [.ws])

/-- `[:\s]*`. -/
def colonWsStar : RE := rstar (.cls [.ch ':', .ws])

/-- `:?`. -/
def optColon : RE := ropt (.lit ':')

/-- `#?`. -/
def optHash : RE := ropt (.lit '#')

/-- `\$?`. -/
def optDollar : RE := ropt (.lit '$')

/-- `([A-Z0-9\-]+)`. -/
def idGrp : RE := .grp (rplus (.cls [AZ, d09, .ch '-']))

/-- `([0-9,]+\.?\d*)`. -/
def moneyGrp : RE :=
  .grp (rs [rplus (.cls [d09, .ch ',']), ropt (.lit '.'), rstar (.cls [.dig])])

/-- `[\/\-]`. -/
def dsep : RE := .cls [.ch '/', .ch '-']

/-- `\d{1,2}[\/\-]\d{1,2}[\/\-]\d{2,4}`. -/
def dateCore : RE :=
  rs [repRange 1 2 (.cls [.dig]), dsep, repRange 1 2 (.cls [.dig]), dsep,
      repRange 2 4 (.cls [.dig])]

/-- `(\d{1,2}[\/\-]\d{1,2}[\/\-]\d{2,4})`. -/
def dateGrp : RE := .grp dateCore

/-- `self.patterns`: the ordered field/pattern table of
`InvoiceModel.__init__`, transcribed pattern by pattern. -/
def patterns : List (String × List RE) :=
  [("vendor_name",
    [rs [alts [rlit "from", rlit "vendor", rlit "company", rlit "bill from",
               rlit "sold by"],
         colonWsStar,
         .grp (rplusLazy (.cls [AZ, az, d09, .ws, .ch '&', .ch '.', .ch ',', .ch '-'])),
         alts [.lit '\n', rlit "address", rlit "phone", rlit "email", rlit "tax"]],
     rs [.bol,
         .grp (rplusLazy (.cls [AZ, az, d09, .ws, .ch '&', .ch '.', .ch ',', .ch '-'])),
         alts [rs [.lit '\n', rstar .dot, rlit "address"], rlit "phone", rlit "email"]],
     .grp (rs [.cls [AZ], rplus (.cls [AZ, az, .ws, .ch '&', .ch '.', .ch ',', .ch '-']),
               alts [rlit "inc", rlit "llc", rlit "ltd", rlit "corp", rlit "company"]])]),
   ("vendor_address",
    [rs [alts [rlit "address", rlit "addr"], colonWsStar,
         .grp (rplusLazy (.cls [AZ, az, d09, .ws, .ch ',', .ch '.', .ch '-', .ch '#'])),
         alts [rlit "\n\n", rlit "phone", rlit "email", rlit "tax", rlit "invoice"]],
     .grp (rs [rplus (.cls [.dig]), rplus (.cls [.ws]),
               rplus (.cls [AZ, az, .ws, .ch ',', .ch '.', .ch '-']),
               repn 5 (.cls [.dig])])]),
   ("vendor_tax_id",
    [rs [alts [rs [rlit "tax", wsStar, rlit "id"], rlit "gst", rlit "vat", rlit "ein"],
         rstar (.cls [.ch ':', .ws, .ch '#']), idGrp],
     rs [alts [rs [rlit "federal", wsStar, rlit "id"],
               rs [rlit "employer", wsStar, rlit "id"]],
         rstar (.cls [.ch ':', .ws, .ch '#']), idGrp]]),
   ("vendor_contact",
    [rs [alts [rlit "phone", rlit "tel", rlit "contact"], colonWsStar,
         .grp (rplus (.cls [d09, .ch '-', .ch '(', .ch ')', .ws, .ch '+']))],
     rs [alts [rlit "email", rlit "e-mail"], colonWsStar,
         .grp (rplus (.cls [AZ, az, d09, .ch '@', .ch '.', .ch '-', .ch '_']))]]),
   ("invoice_number",
    [rs [rlit "invoice", wsStar, optHash, wsStar, optColon, wsStar, idGrp],
     rs [rlit "inv", wsStar, optHash, wsStar, optColon, wsStar, idGrp],
     rs [.lit '#', wsStar, idGrp],
     rs [rlit "invoice", wsStar, rlit "number", colonWsStar, idGrp]]),
   ("invoice_date",
    [rs [ropt (rs [rlit "invoice", wsStar]), rlit "date", wsStar, optColon, wsStar,
         dateGrp],
     rs [ropt (rs [rlit "invoice", wsStar]), rlit "date", wsStar, optColon, wsStar,
         .grp (rs [rplus (.cls [AZ, az]), rplus (.cls [.ws]),
                   repRange 1 2 (.cls [.dig]), ropt (.lit ','),
                   rplus (.cls [.ws]), repn 4 (.cls [.dig])])],
     dateGrp]),
   ("due_date",
    [rs [rlit "due", wsStar, rlit "date", wsStar, optColon, wsStar, dateGrp],
     rs [rlit "payment", wsStar, rlit "due", wsStar, optColon, wsStar, dateGrp]]),
   ("po_number",
    [rs [alts [rlit "po", rs [rlit "purchase", wsStar, rlit "order"]],
         wsStar, optHash, wsStar, optColon, wsStar, idGrp],
     rs [.lit 'p', ropt (.lit '.'), .lit 'o', ropt (.lit '.'),
         wsStar, optHash, wsStar, optColon, wsStar, idGrp]]),
   ("payment_terms",
    [rs [alts [rs [rlit "payment", wsStar, rlit "terms"], rlit "terms"], colonWsStar,
         .grp (alts [rs [rlit "net", wsStar, rplus (.cls [.dig])],
                     rs [rlit "due", wsStar, rlit "on", wsStar, rlit "receipt"],
                     rplus (.cls [AZ, az, d09, .ws])])],
     .grp (rs [rlit "net", wsStar, rplus (.cls [.dig])])]),
   ("subtotal",
    [rs [rlit "subtotal", wsStar, optColon, wsStar, optDollar, moneyGrp],
     rs [rlit "sub", wsStar, rlit "total", wsStar, optColon, wsStar, optDollar,
         moneyGrp]]),
   ("tax_amount",
    [rs [rlit "tax", wsStar, ropt (rlit "amount"), wsStar, optColon, wsStar,
         optDollar, moneyGrp],
     rs [alts [rs [rlit "sales", wsStar, rlit "tax"], rlit "vat"],
         wsStar, optColon, wsStar, optDollar, moneyGrp]]),
   ("tax_rate",
    [rs [rlit "tax", wsStar, ropt (rlit "rate"), wsStar, optColon, wsStar,
         .grp (rplus (.cls [d09, .ch '.'])), .lit '%'],
     rs [alts [rs [rlit "sales", wsStar, rlit "tax"], rlit "vat"],
         wsStar, ropt (rlit "rate"), wsStar, optColon, wsStar,
         .grp (rplus (.cls [d09, .ch '.'])), .lit '%']]),
   ("discount",
    [rs [rlit "discount", wsStar, optColon, wsStar, optDollar, moneyGrp],
     rs [rlit "less", wsStar, optColon, wsStar, optDollar, moneyGrp]]),
   ("shipping",
    [rs [alts [rlit "shipping", rlit "freight", rlit "delivery"],
         wsStar, optColon, wsStar, optDollar, moneyGrp],
     rs [alts [rlit "handling", rlit "ship"],
         wsStar, optColon, wsStar, optDollar, moneyGrp]]),
   ("total",
    [rs [rlit "total", wsStar, ropt (rlit "amount"), wsStar, ropt (rlit "due"),
         wsStar, optColon, wsStar, optDollar, moneyGrp],
     rs [rlit "amount", wsStar, rlit "due", wsStar, optColon, wsStar, optDollar,
         moneyGrp],
     rs [rlit "grand", wsStar, rlit "total", wsStar, optColon, wsStar, optDollar,
         moneyGrp],
     rs [.lit '$', moneyGrp]]),
   ("currency",
    [.grp (alts [.lit '$', rlit "USD", rlit "EUR", rlit "GBP", rlit "CAD"]),
     rs [rlit "currency", colonWsStar, .grp (repn 3 (.cls [AZ]))]]),
   ("bank_details",
    [rs [alts [rlit "bank", rlit "routing", rlit "account"],
         wsStar, ropt (alts [rlit "number", .lit '#']), wsStar, optColon, wsStar,
         .grp (rplus (.cls [d09, .ch '-']))],
     rs [alts [rlit "swift", rlit "iban"], wsStar, optColon, wsStar,
         .grp (rplus (.cls [AZ, d09]))]]),
   ("notes",
    [rs [alts [rlit "notes", rlit "comments", rlit "memo"], colonWsStar,
         .grp (rplusLazy (.cls [AZ, az, d09, .ws, .ch '.', .ch ',', .ch '-'])),
         alts [rlit "\n\n", .eol]]]),
   ("payment_method",
    [rs [alts [rs [rlit "payment", wsStar, rlit "method"],
               rs [rlit "pay", wsStar, rlit "via"]], colonWsStar,
         .grp (rplus (.cls [AZ, az, .ws]))],
     alts [rlit "check", rlit "cash", rlit "credit", rlit "wire", rlit "ach"]])]

/-- Does `needle` occur at the head of the second list? -/
def beginsWith : List Char → List Char → Bool
  | [], _ => true
  | _ :: _, [] => false
  | a :: r, b :: s => a == b && beginsWith r s

/-- Python `needle in hay` substring test. -/
def containsSub (hay needle : List Char) : Bool :=
  (List.range (hay.length + 1)).any (fun i => beginsWith needle (hay.drop i))

/-- `' '.join(...)`. -/
def joinSp : List (List Char) → List Char
  | [] => []
  | [x] => x
  | x :: r => x ++ ' ' :: joinSp r

/-- Worker of `str.split()` (whitespace runs, empties discarded). -/
def splitWsAux : List Char → List Char → List (List Char)
  | [], cur => if cur.isEmpty then [] else [cur.reverse]
  | c :: rest, cur =>
    if isPySpace c then
      if cur.isEmpty then splitWsAux rest [] else cur.reverse :: splitWsAux rest []
    else splitWsAux rest (c :: cur)

/-- Python `str.split()` with no separator. -/
def pySplitWs (l : List Char) : List (List Char) := splitWsAux l []

/-- Worker of `str.split('\n')`. -/
def splitNlAux : List Char → List Char → List (List Char)
  | [], cur => [cur.reverse]
  | c :: rest, cur =>
    if c == '\n' then cur.reverse :: splitNlAux rest []
    else splitNlAux rest (c :: cur)

/-- Python `str.split('\n')` (keeps empty lines). -/
def splitNl (l : List Char) : List (List Char) := splitNlAux l []

/-- A detected line item row. -/
structure LineItem where
  description : List Char
  quantity : Option ℚ
  unit_price : Option ℚ
  line_total : Option ℚ
deriving DecidableEq

/-- The header words that make `extract_line_items` skip a line. -/
def headerTokens : List (List Char) :=
  ["description".data, "qty".data, "quantity".data, "price".data,
   "total".data, "amount".data]

/-- `^\$?[0-9,]+\.?\d*$`, the numeric-token shape used by
`extract_line_items` (matched with `re.match` and no flags). -/
def numTokenRE : RE :=
  rs [.bol, optDollar, rplus (.cls [d09, .ch ',']), ropt (.lit '.'),
      rstar (.cls [.dig]), .eol]

/-- Numeric-token test for one whitespace-separated part. -/
def isNumToken (t : List Char) : Bool := rematch false false numTokenRE t

/-- `InvoiceModel.extract_line_items`: line-oriented heuristic rows, capped
at 10. -/
def extract_line_items (text : List Char) : List LineItem :=
  ((splitNl text).foldl (fun acc line =>
    if (pyStrip line).isEmpty then acc
    else if headerTokens.any (fun h => containsSub (line.map Char.toLower) h) then acc
    else
      let parts := pySplitWs line
      if 3 ≤ parts.length then
        let numbers := parts.filter isNumToken
        if 2 ≤ numbers.length then
          acc ++ [{ description := joinSp (parts.take (parts.length - numbers.length)),
                    quantity :=
                      if 0 < numbers.length then clean_number (numbers.getD 0 [])
                      else none,
                    unit_price :=
                      if 1 < numbers.length then
                        clean_number (numbers.getD (numbers.length - 2) [])
                      else none,
                    line_total :=
                      if 0 < numbers.length then
                        clean_number (numbers.getD (numbers.length - 1) [])
                      else none }]
        else acc
      else acc) []).take 10

/-- Group-1 value of a match: `match.group(1).strip()`. -/
def sliceStrip (l : List Char) (a b : ℕ) : List Char :=
  pyStrip ((l.drop a).take (b - a))

/-- Outcome of resolving one field: no pattern matched, a candidate, or the
`IndexError` a matching group-less pattern would raise in `group(1)`. -/
inductive F3 where
  | nomatch
  | got (v : List Char)
  | err

/-- First matching pattern wins (`break` after the first match). -/
def tryPatterns (lower : List Char) : List RE → F3
  | [] => .nomatch
  | p :: rest =>
    match research true true p lower with
    | none => tryPatterns lower rest
    | some none => .err
    | some (some (a, b)) => .got (sliceStrip lower a b)

/-- Output of `InvoiceModel.extract_fields`: the candidate map in pattern
order, and the line items under their own key when the detected list is
non-empty. -/
structure ExtractOutput where
  cands : List (String × List Char)
  line_items : Option (List LineItem)
deriving DecidableEq

/-- `InvoiceModel.extract_fields`: resolve every field against the
lower-cased text (first matching pattern supplies the trimmed group-1
candidate), then append the detected line items when non-empty.  `none`
models the `IndexError` raised if a group-less pattern matches. -/
def extract_fields (text : List Char) : Option ExtractOutput :=
  let lower := text.map Char.toLower
  let cands := patterns.foldl (fun acc fp =>
    match acc with
    | none => none
    | some l =>
      match tryPatterns lower fp.2 with
      | .nomatch => some l
      | .got v => some (l ++ [(fp.1, v)])
      | .err => none) (some [])
  match cands with
  | none => none
  | some l =>
    let items := extract_line_items text
    some ⟨l, if items.isEmpty then none else some items⟩

/-- A normalized record value: a string, a parsed amount, or the line-item
list. -/
inductive Value where
  | str (s : List Char)
  | num (q : ℚ)
  | items (l : List LineItem)
deriving DecidableEq

/-- Python truthiness of a record value. -/
def truthyV : Value → Bool
  | .str s => !s.isEmpty
  | .num q => decide (q ≠ 0)
  | .items l => !l.isEmpty

/-- The amount fields of `validate_field`. -/
def amountFields : List String :=
  ["subtotal", "tax_amount", "discount", "shipping", "total"]

/-- The date fields of `validate_field`. -/
def dateFields : List String := ["invoice_date", "due_date"]

/-- `\d{1,2}[\/\-]\d{1,2}[\/\-]\d{2,4}`, the date-shape check of
`validate_field` (`re.match`, no flags). -/
def dateShapeRE : RE := dateCore

/-- `InvoiceModel.validate_field` on a string candidate: amounts are parsed
(confidence 0.9, dropped on failure), dates kept verbatim (0.8 when
date-shaped, else 0.5), the invoice number upper-cased (0.9), the vendor
name title-cased (0.7), everything else kept verbatim (0.6); falsy values
are dropped at confidence 0.  (On string inputs none of these operations
raises, so the `except` fallback returning `(value, 0.3)` is dead code and
has no counterpart here.) -/
def validate_field (field : String) (value : List Char) : Option Value × ℚ :=
  if value.isEmpty then (none, 0)
  else if field ∈ amountFields then
    match clean_number value with
    | some q => (some (.num q), 9/10)
    | none => (none, 0)
  else if field ∈ dateFields then
    if rematch false false dateShapeRE value then (some (.str value), 4/5)
    else (some (.str value), 1/2)
  else if field = "invoice_number" then (some (.str (value.map Char.toUpper)), 9/10)
  else if field = "vendor_name" then (some (.str (pyTitle value)), 7/10)
  else (some (.str value), 3/5)

/-- The candidate loop of `validate_extraction`: build the validated map
and the confidence map in input order; a candidate under the key
`line_items` is passed through with confidence 0.8 when truthy, 0.0
otherwise; other candidates go through `validate_field` and are kept only
when the cleaned value is not `None`. -/
def validateCands : List (String × List Char) → List (String × Value) × List (String × ℚ)
  | [] => ([], [])
  | (f, v) :: rest =>
    let r := validateCands rest
    if f = "line_items" then
      ((f, .str v) :: r.1, (f, if v.isEmpty then (0 : ℚ) else 4/5) :: r.2)
    else
      match validate_field f v with
      | (some cv, c) => ((f, cv) :: r.1, (f, c) :: r.2)
      | (none, _) => r

/-- The result of `validate_mathematics`. -/
structure MathValidation where
  subtotal_tax_total_match : Bool
  line_items_sum_match : Bool
  calculations_correct : Bool
deriving DecidableEq

/-- `data.get(k, 0) or 0` for an amount key: absent and falsy values give
0; a truthy non-numeric value would make the arithmetic raise, modelled as
`none` (the `except` then leaves every flag `False`). -/
def getAmtE (data : List (String × Value)) (k : String) : Option ℚ :=
  match data.lookup k with
  | none => some 0
  | some (.num q) => some q
  | some (.str s) => if s.isEmpty then some 0 else none
  | some (.items l) => if l.isEmpty then some 0 else none

/-- `InvoiceModel.validate_mathematics`: check `|subtotal + tax + shipping
- discount - total| < 0.01`, then the line-item sum against the subtotal,
and finally set `calculations_correct` to `subtotal_tax_total_match`
alone.  A truthy non-numeric amount raises before any flag is set (all
`False`); a truthy non-list `line_items` value raises during the sum, after
`subtotal_tax_total_match` is set but before `calculations_correct`. -/
def validate_mathematics (data : List (String × Value)) : MathValidation :=
  match getAmtE data "subtotal", getAmtE data "tax_amount", getAmtE data "total",
      getAmtE data "discount", getAmtE data "shipping" with
  | some st, some tx, some tot, some di, some sh =>
    let stm : Bool := decide (pyabs ((st + tx + sh - di) - tot) < 1/100)
    match data.lookup "line_items" with
    | none => ⟨stm, false, stm⟩
    | some (.items l) =>
      if l.isEmpty then ⟨stm, false, stm⟩
      else
        ⟨stm,
         decide (pyabs ((l.map (fun it => it.line_total.getD 0)).sum - st) < 1/100),
         stm⟩
    | some (.str s) => if s.isEmpty then ⟨stm, false, stm⟩ else ⟨stm, false, false⟩
    | some (.num q) => if q = 0 then ⟨stm, false, stm⟩ else ⟨stm, false, false⟩
  | _, _, _, _, _ => ⟨false, false, false⟩

/-- The four required fields. -/
def requiredFields : List String :=
  ["invoice_number", "invoice_date", "total", "vendor_name"]

/-- `field in field_confidence`. -/
def fcHasKey (fc : List (String × ℚ)) (f : String) : Bool :=
  fc.any (fun p => p.1 == f)

/-- Python 3 `round` to an integer: round half to even. -/
def rhe (y : ℚ) : ℤ :=
  if y - ⌊y⌋ < 1/2 then ⌊y⌋
  else if 1/2 < y - ⌊y⌋ then ⌊y⌋ + 1
  else if ⌊y⌋ % 2 = 0 then ⌊y⌋ else ⌊y⌋ + 1

/-- Python `round(x, 2)`. -/
def round2 (q : ℚ) : ℚ := (rhe (q * 100) : ℚ) / 100

/-- `InvoiceModel.calculate_overall_confidence`: 0.0 for an empty
confidence map, otherwise the per-field average, plus 0.1 when
`calculations_correct`, minus 0.05 per required field missing from the
confidence map, capped above at 1.0 by `min` (there is no lower cap) and
rounded to two decimals. -/
def calculate_overall_confidence (fc : List (String × ℚ)) (mv : MathValidation) : ℚ :=
  if fc.isEmpty then 0
  else
    let base := (fc.map (fun p => p.2)).sum / (fc.length : ℚ)
    let boost : ℚ := if mv.calculations_correct then 1/10 else 0
    let penalty := (requiredFields.map
      (fun f => if fcHasKey fc f then (0 : ℚ) else 1/20)).sum
    round2 (pymin 1 (base + boost - penalty))

/-- `InvoiceModel.get_missing_required_fields`: required fields absent or
falsy in the validated record, in fixed order. -/
def get_missing_required_fields (data : List (String × Value)) : List String :=
  requiredFields.filter (fun f =>
    match data.lookup f with
    | none => true
    | some v => !(truthyV v))

/-- The record produced by `InvoiceModel.validate_extraction`. -/
structure ValidationResult where
  extracted_data : List (String × Value)
  field_confidence : List (String × ℚ)
  math_validation : MathValidation
  overall_confidence : ℚ
  missing_required_fields : List String
deriving DecidableEq

/-- `InvoiceModel.validate_extraction` on an extraction output: validate
the candidates, append the line items (confidence 0.8 when non-empty, 0.0
otherwise), then run the mathematical validation, the overall confidence
and the missing-required-fields report. -/
def validate_extraction (d : ExtractOutput) : ValidationResult :=
  let vc := validateCands d.cands
  let vd := match d.line_items with
    | some l => vc.1 ++ [("line_items", Value.items l)]
    | none => vc.1
  let fc := match d.line_items with
    | some l => vc.2 ++ [("line_items", if l.isEmpty then (0 : ℚ) else 4/5)]
    | none => vc.2
  let mv := validate_mathematics vd
  ⟨vd, fc, mv, calculate_overall_confidence fc mv, get_missing_required_fields vd⟩

/-- The pipeline `extract_fields` then `validate_extraction` (the
`extractAndValidate` interface of the spec). -/
def extractAndValidate (text : List Char) : Option ValidationResult :=
  (extract_fields text).map validate_extraction


/-- The example text of the spec (claim C1). -/
def c1text : List Char :=
  "Invoice #: INV-2024-001\nDate: 12/15/2024\nSubtotal: $100.00\nTax: $10.00\nTotal: $110.00".data

/-- The record the pipeline actually produces on `c1text`: the `total`
pattern's leftmost match lies inside "subtotal: $100.00", so `total` is
100 rather than 110, the arithmetic check fails, and the overall
confidence is 0.78. -/
def c1record : ValidationResult :=
  { extracted_data :=
      [("invoice_number", Value.str "INV-2024-001".data),
       ("invoice_date", Value.str "12/15/2024".data),
       ("subtotal", Value.num 100),
       ("tax_amount", Value.num 10),
       ("total", Value.num 100),
       ("currency", Value.str "$".data)],
    field_confidence :=
      [("invoice_number", 9/10), ("invoice_date", 4/5), ("subtotal", 9/10),
       ("tax_amount", 9/10), ("total", 9/10), ("currency", 3/5)],
    math_validation := ⟨false, false, false⟩,
    overall_confidence := 39/50,
    missing_required_fields := ["vendor_name"] }

/-- A record's `line_items` entry (if any) is a well-typed line-item list
or falsy — the shape every record produced by the pipeline has.  (A truthy
non-list under that key would make the Python line-item sum raise, leaving
`calculations_correct` behind `subtotal_tax_total_match`.) -/
def LineItemsTyped (data : List (String × Value)) : Prop :=
  match data.lookup "line_items" with
  | some (.str s) => s.isEmpty = true
  | some (.num q) => q = 0
  | _ => True

/-- `t` is a string form of a validated value: the value itself for string
values, any string that cleans back to the number for amounts (Python's
`str(float)` round-trips exactly, so `str(q)` is such a form); line-item
lists have no string form fed back through `validate_field`. -/
def IsStringForm : Value → List Char → Prop
  | .str s, t => t = s
  | .num q, t => clean_number t = some q
  | .items _, _ => False

/-! ## Theorems -/

theorem prune_eq_self {w now : ℚ} {q : List ℚ} (h : ∀ t ∈ q, ¬ t < now - w) :
    prune w now q = q := by
  cases q with
  | nil => rfl
  | cons t r =>
    unfold prune
    rw [if_neg (h t (List.mem_cons_self t r))]

theorem prune_eq_nil {w now : ℚ} {q : List ℚ} (h : ∀ t ∈ q, t < now - w) :
    prune w now q = [] := by
  induction q with
  | nil => rfl
  | cons t r ih =>
    unfold prune
    rw [if_pos (h t (List.mem_cons_self t r))]
    exact ih (fun u hu => h u (List.mem_cons_of_mem t hu))

theorem runAdmits_all_allowed (m : ℕ) (w : ℚ) :
    ∀ (ts s : List ℚ), s.length + ts.length ≤ m →
      (s ++ ts).Pairwise (fun a b => a ≤ b ∧ b - w ≤ a) →
      runAdmits m w s ts = (List.replicate ts.length true, s ++ ts) := by
  intro ts
  induction ts with
  | nil => intro s _ _; simp [runAdmits]
  | cons t rest ih =>
    intro s hlen hp
    have hst : ∀ u ∈ s, u ≤ t ∧ t - w ≤ u := fun u hu =>
      (List.pairwise_append.mp hp).2.2 u hu t (List.mem_cons_self t rest)
    have hprune : prune w t s = s :=
      prune_eq_self (fun u hu => not_lt.mpr (hst u hu).2)
    have hlt : s.length < m := by
      simp only [List.length_cons] at hlen; omega
    have hstep : is_allowed m w s t = (true, s ++ [t]) := by
      unfold is_allowed
      rw [hprune, if_neg (by omega)]
    have hp' : ((s ++ [t]) ++ rest).Pairwise (fun a b => a ≤ b ∧ b - w ≤ a) := by
      simpa [List.append_assoc] using hp
    have hlen' : (s ++ [t]).length + rest.length ≤ m := by
      simp only [List.length_append, List.length_cons, List.length_nil] at *
      omega
    have ihr := ih (s ++ [t]) hlen' hp'
    simp only [runAdmits, hstep, ihr, List.length_cons, List.replicate_succ,
      List.append_assoc, List.singleton_append]

/-- Claim C3: starting from an empty window, `maxRequests` admission checks
at mutually in-window, nondecreasing times are all Allowed; an immediately
following check (still inside the window) is Denied and leaves the stored
timestamps unchanged, with `remaining = 0`; once the window has elapsed
past all stored timestamps, an admission check is Allowed again. -/
theorem c3_quota_window (m : ℕ) (w : ℚ) (ts : List ℚ) (now now2 : ℚ)
    (hm : 0 < m) (hlen : ts.length = m)
    (hchain : ts.Pairwise (fun a b => a ≤ b ∧ b - w ≤ a))
    (hlow : ∀ t ∈ ts, now - w ≤ t)
    (hexp : ∀ t ∈ ts, t < now2 - w) :
    runAdmits m w [] ts = (List.replicate m true, ts) ∧
    is_allowed m w ts now = (false, ts) ∧
    (get_remaining m w ts now).1 = 0 ∧
    (is_allowed m w ts now2).1 = true := by
  have hrun := runAdmits_all_allowed m w ts [] (by simpa [hlen]) (by simpa using hchain)
  have hpr : prune w now ts = ts :=
    prune_eq_self (fun t ht => not_lt.mpr (hlow t ht))
  have hpr2 : prune w now2 ts = [] := prune_eq_nil hexp
  refine ⟨by simpa [hlen] using hrun, ?_, ?_, ?_⟩
  · unfold is_allowed
    rw [hpr, if_pos (by omega)]
  · simp only [get_remaining, pymax, hpr, hlen]
    simp
  · unfold is_allowed
    rw [hpr2]
    simp only [List.length_nil]
    rw [if_neg (by omega)]

theorem c3_quota_window_witness :
    runAdmits 2 100 [] [(0 : ℚ), 0] = (List.replicate 2 true, [0, 0]) ∧
    is_allowed 2 100 [(0 : ℚ), 0] 0 = (false, [0, 0]) ∧
    (get_remaining 2 100 [(0 : ℚ), 0] 0).1 = 0 ∧
    (is_allowed 2 100 [(0 : ℚ), 0] 500).1 = true :=
  c3_quota_window 2 100 [0, 0] 0 500 (by decide) (by simp)
    (by simp) (by simp) (by simp; decide)

/-- Claim C6 (counterexample): with a 24h window (86400 s), a queue holding
the single timestamp 0 observed at time 200000 has no live entries (pruning
empties it, and `get_remaining` reports the full quota), yet
`get_reset_time` still returns `0 + 86400` rather than `none` — the
read-only `get_reset_time` accessor does not prune. -/
theorem c6_reset_counterexample :
    prune 86400 200000 [(0 : ℚ)] = [] ∧
    (get_remaining 10 86400 [(0 : ℚ)] 200000).1 = 10 ∧
    get_reset_time 86400 [(0 : ℚ)] = some 86400 ∧
    get_reset_time 86400 [(0 : ℚ)] ≠ none := by
  have hp : prune 86400 200000 [(0 : ℚ)] = [] := by
    unfold prune
    rw [if_pos (by norm_num)]
    rfl
  refine ⟨hp, ?_, by simp [get_reset_time], by simp [get_reset_time]⟩
  unfold get_remaining pymax
  rw [hp]
  simp

/-- Claim C6 (amended): `get_reset_time` returns the oldest *stored*
timestamp plus the window duration without any pruning (`none` only for an
empty queue), so it can report a time derived from an expired entry; the
admission check and `get_remaining` do prune identically, so those two
observe the same live count: the check allows exactly when the reported
remaining quota is positive, and both leave the deque pruned. -/
theorem c6_reset_amended (m : ℕ) (w : ℚ) (q : List ℚ) (now : ℚ) :
    ((is_allowed m w q now).1 = true ↔ 0 < (get_remaining m w q now).1) ∧
    (get_remaining m w q now).2 = prune w now q ∧
    (∀ t r, q = t :: r → get_reset_time w q = some (t + w)) := by
  refine ⟨?_, rfl, ?_⟩
  · unfold is_allowed get_remaining pymax
    by_cases hc : m ≤ (prune w now q).length
    · rw [if_pos hc]
      have h0 : ¬ ((0 : ℤ) < (m : ℤ) - (prune w now q).length) := by omega
      simp only [if_neg h0]
      constructor
      · intro h; exact absurd h (by simp)
      · intro h; omega
    · rw [if_neg hc]
      have h0 : (0 : ℤ) < (m : ℤ) - (prune w now q).length := by omega
      simp only [if_pos h0]
      refine ⟨fun _ => h0, fun _ => ?_⟩
      simp
  · intro t r hq
    subst hq
    rfl

theorem c6_reset_amended_witness :
    ((is_allowed 1 1 [(0 : ℚ)] 0).1 = true ↔ 0 < (get_remaining 1 1 [(0 : ℚ)] 0).1) ∧
    (get_remaining 1 1 [(0 : ℚ)] 0).2 = prune 1 0 [(0 : ℚ)] ∧
    get_reset_time 1 [(0 : ℚ)] = some (0 + 1) :=
  ⟨(c6_reset_amended 1 1 [(0 : ℚ)] 0).1, (c6_reset_amended 1 1 [(0 : ℚ)] 0).2.1,
    (c6_reset_amended 1 1 [(0 : ℚ)] 0).2.2 0 [] rfl⟩

/-- Claim C4 (counterexample): identity "a" submits bytes `[1]` (stored as
invoice number "N"); identity "b" then submits different bytes `[2]` with
the same invoice number, which overwrites the entry stored under "N"; a
third submission of the original bytes `[1]` is reported duplicate, but the
returned record is the second submission's entry (payload 2), not the first
submission's stored record (payload 1). -/
theorem c4_hash_counterexample :
    ((check_duplicate 86400 0 kfC4 "a" [1] 1 ⟨[], [], []⟩).2.processed_invoices.lookup "N"
        = some ⟨1, 0, "a", [1]⟩) ∧
    ((check_duplicate 86400 0 kfC4 "c" [1] 3
        (check_duplicate 86400 0 kfC4 "b" [2] 2
          (check_duplicate 86400 0 kfC4 "a" [1] 1 ⟨[], [], []⟩).2).2).1
      = (true, some ⟨2, 0, "b", [2]⟩)) ∧
    (⟨2, 0, "b", [2]⟩ : Entry ℕ).data ≠ 1 := by
  decide

/-- Claim C4 (amended): whenever, after eviction, the content-hash index
still maps the submitted bytes to a business key whose stored entry is the
first submission's record (no later submission overwrote that key and it
was not evicted), `check_duplicate` returns `(true, that entry)` for any
submitting identity and leaves the state as evicted. -/
theorem c4_hash_hit {D : Type} (ret now : ℤ) (getKey : D → Option String)
    (ip : String) (bytes : List ℕ) (d : D) (s : DupState D) (n : String)
    (e : Entry D)
    (h1 : (_cleanup_old_entries ret now s).invoice_hashes.lookup bytes = some n)
    (h2 : (_cleanup_old_entries ret now s).processed_invoices.lookup n = some e) :
    check_duplicate ret now getKey ip bytes d s
      = ((true, some e), _cleanup_old_entries ret now s) := by
  simp only [check_duplicate, generate_content_hash]
  rw [h1]
  simp only [Option.some_bind]
  rw [h2]

theorem c4_hash_hit_witness :
    check_duplicate 86400 0 (fun _ : ℕ => none) "z" [5] 7
        ⟨[("K", ⟨3, 0, "a", [5]⟩)], [([5], "K")], [("a", ["K"])]⟩
      = ((true, some ⟨3, 0, "a", [5]⟩),
         _cleanup_old_entries 86400 0 ⟨[("K", ⟨3, 0, "a", [5]⟩)], [([5], "K")], [("a", ["K"])]⟩) :=
  c4_hash_hit 86400 0 (fun _ : ℕ => none) "z" [5] 7
    ⟨[("K", ⟨3, 0, "a", [5]⟩)], [([5], "K")], [("a", ["K"])]⟩ "K" ⟨3, 0, "a", [5]⟩
    (by decide) (by decide)

/-- Claim C5 (counterexample): after identity "a" stores bytes `[9]` under
invoice number "N", a submission of the same bytes whose record has *no*
business key is still reported as a duplicate through the content-hash
check — it does not return `(false, none)`. -/
theorem c5_no_key_counterexample :
    kfC5 2 = none ∧
    ((check_duplicate 86400 0 kfC5 "a" [9] 2
        (check_duplicate 86400 0 kfC5 "a" [9] 1 ⟨[], [], []⟩).2).1
      = (true, some ⟨1, 0, "a", [9]⟩)) ∧
    ((check_duplicate 86400 0 kfC5 "a" [9] 2
        (check_duplicate 86400 0 kfC5 "a" [9] 1 ⟨[], [], []⟩).2).1
      ≠ (false, none)) := by
  decide

/-- Claim C5 (amended): a submission whose record has no truthy business
key returns `(false, none)` and stores nothing (the state is only the
eviction pass), *provided* the content hash of its bytes does not resolve
to a stored entry; byte-identical resubmission of a stored document is
still reported duplicate even without a business key. -/
theorem c5_no_key {D : Type} (ret now : ℤ) (getKey : D → Option String)
    (ip : String) (bytes : List ℕ) (d : D) (s : DupState D)
    (h0 : truthyK (getKey d) = false)
    (h1 : ((_cleanup_old_entries ret now s).invoice_hashes.lookup bytes).bind
        (fun prev => (_cleanup_old_entries ret now s).processed_invoices.lookup prev) = none) :
    check_duplicate ret now getKey ip bytes d s
      = ((false, none), _cleanup_old_entries ret now s) := by
  simp only [check_duplicate, generate_content_hash]
  rw [h1, h0]
  simp

theorem c5_no_key_witness :
    check_duplicate 86400 0 (fun _ : ℕ => none) "a" [1] 5 ⟨[], [], []⟩
      = ((false, none), _cleanup_old_entries 86400 0 (⟨[], [], []⟩ : DupState ℕ)) :=
  c5_no_key 86400 0 (fun _ : ℕ => none) "a" [1] 5 ⟨[], [], []⟩ (by decide) (by decide)


theorem char_toNat_ofNat {n : ℕ} (h : n < 55296) : (Char.ofNat n).toNat = n := by
  rw [Char.ofNat, dif_pos (Or.inl h)]
  simp [Char.ofNatAux, Char.toNat, UInt32.toNat]

theorem toUpper_toUpper (c : Char) : c.toUpper.toUpper = c.toUpper := by
  simp only [Char.toUpper]
  by_cases h : c.toNat ≥ 97 ∧ c.toNat ≤ 122
  · rw [if_pos h]
    have hv : (Char.ofNat (c.toNat - 32)).toNat = c.toNat - 32 :=
      char_toNat_ofNat (by omega)
    rw [if_neg (by rw [hv]; omega)]
  · rw [if_neg h, if_neg h]

theorem toLower_toLower (c : Char) : c.toLower.toLower = c.toLower := by
  simp only [Char.toLower]
  by_cases h : c.toNat ≥ 65 ∧ c.toNat ≤ 90
  · rw [if_pos h]
    have hv : (Char.ofNat (c.toNat + 32)).toNat = c.toNat + 32 :=
      char_toNat_ofNat (by omega)
    rw [if_neg (by rw [hv]; omega)]
  · rw [if_neg h, if_neg h]

theorem isAlpha_toUpper (c : Char) : isAlphaAscii c.toUpper = isAlphaAscii c := by
  by_cases h : c.toNat ≥ 97 ∧ c.toNat ≤ 122
  · simp only [Char.toUpper, isAlphaAscii, if_pos h]
    have hv : (Char.ofNat (c.toNat - 32)).toNat = c.toNat - 32 :=
      char_toNat_ofNat (by omega)
    simp only [hv]
    rw [Bool.eq_iff_iff]
    simp only [Bool.or_eq_true, Bool.and_eq_true, decide_eq_true_eq]
    omega
  · simp only [Char.toUpper, isAlphaAscii, if_neg h]

theorem isAlpha_toLower (c : Char) : isAlphaAscii c.toLower = isAlphaAscii c := by
  by_cases h : c.toNat ≥ 65 ∧ c.toNat ≤ 90
  · simp only [Char.toLower, isAlphaAscii, if_pos h]
    have hv : (Char.ofNat (c.toNat + 32)).toNat = c.toNat + 32 :=
      char_toNat_ofNat (by omega)
    simp only [hv]
    rw [Bool.eq_iff_iff]
    simp only [Bool.or_eq_true, Bool.and_eq_true, decide_eq_true_eq]
    omega
  · simp only [Char.toLower, isAlphaAscii, if_neg h]

theorem titleAux_length (l : List Char) : ∀ b, (titleAux b l).length = l.length := by
  induction l with
  | nil => intro b; rfl
  | cons c r ih =>
    intro b
    unfold titleAux
    by_cases h : isAlphaAscii c = true
    · rw [if_pos h]; simp [ih]
    · rw [if_neg h]; simp [ih]

theorem titleAux_titleAux (l : List Char) :
    ∀ b, titleAux b (titleAux b l) = titleAux b l := by
  induction l with
  | nil => intro b; rfl
  | cons c r ih =>
    intro b
    by_cases h : isAlphaAscii c = true
    · have h1 : titleAux b (c :: r)
          = (if b then c.toLower else c.toUpper) :: titleAux true r := by
        rw [titleAux, if_pos h]
      have halpha : isAlphaAscii (if b then c.toLower else c.toUpper) = true := by
        cases b <;> simp [isAlpha_toUpper, isAlpha_toLower, h]
      have h2 : titleAux b ((if b then c.toLower else c.toUpper) :: titleAux true r)
          = (if b then (if b then c.toLower else c.toUpper).toLower
             else (if b then c.toLower else c.toUpper).toUpper)
            :: titleAux true (titleAux true r) := by
        rw [titleAux, if_pos halpha]
      rw [h1, h2, ih true]
      cases b <;> simp [toLower_toLower, toUpper_toUpper]
    · have h1 : titleAux b (c :: r) = c :: titleAux false r := by
        rw [titleAux, if_neg h]
      have h2 : titleAux b (c :: titleAux false r)
          = c :: titleAux false (titleAux false r) := by
        rw [titleAux, if_neg h]
      rw [h1, h2, ih false]

/-- Claim C9: per-field validation is idempotent on its own output — for
every field, re-validating a string form of a value produced by a
successful validation yields the same normalized value (upper-casing,
title-casing and numeric cleaning are fixpoints on their own outputs;
dates and default fields are kept verbatim). -/
theorem c9_validate_idempotent (f : String) (v : List Char) (u : Value) (c : ℚ)
    (t : List Char) (h1 : validate_field f v = (some u, c))
    (h2 : IsStringForm u t) :
    (validate_field f t).1 = some u := by
  unfold validate_field at h1
  by_cases hv : v.isEmpty
  · rw [if_pos hv] at h1; simp at h1
  rw [if_neg hv] at h1
  by_cases ha : f ∈ amountFields
  · rw [if_pos ha] at h1
    cases hc : clean_number v with
    | none => rw [hc] at h1; simp at h1
    | some q =>
      rw [hc] at h1
      have hu : u = Value.num q := by
        have := congrArg Prod.fst h1
        simp at this
        exact this.symm
      subst hu
      unfold IsStringForm at h2
      unfold validate_field
      have ht : ¬ t.isEmpty = true := by
        intro hempty
        have hnone : clean_number t = none := by
          unfold clean_number; rw [if_pos hempty]
        rw [h2] at hnone
        exact Option.noConfusion hnone
      rw [if_neg ht, if_pos ha, h2]
  · rw [if_neg ha] at h1
    by_cases hd : f ∈ dateFields
    · rw [if_pos hd] at h1
      have hu : u = Value.str v := by
        by_cases hm : rematch false false dateShapeRE v = true
        · rw [if_pos hm] at h1
          have := congrArg Prod.fst h1
          simp at this
          exact this.symm
        · rw [if_neg hm] at h1
          have := congrArg Prod.fst h1
          simp at this
          exact this.symm
      subst hu
      unfold IsStringForm at h2
      rw [h2]
      unfold validate_field
      rw [if_neg hv, if_neg ha, if_pos hd]
      by_cases hm : rematch false false dateShapeRE v = true
      · rw [if_pos hm]
      · rw [if_neg hm]
    · rw [if_neg hd] at h1
      by_cases hn : f = "invoice_number"
      · rw [if_pos hn] at h1
        have hu : u = Value.str (v.map Char.toUpper) := by
          have := congrArg Prod.fst h1
          simp at this
          exact this.symm
        subst hu
        unfold IsStringForm at h2
        rw [h2]
        unfold validate_field
        have ht : ¬ (v.map Char.toUpper).isEmpty = true := by
          simp only [List.isEmpty_iff, List.map_eq_nil_iff]
          simpa [List.isEmpty_iff] using hv
        rw [if_neg ht, if_neg ha, if_neg hd, if_pos hn]
        simp only [Option.some.injEq, Value.str.injEq, List.map_map]
        exact List.map_congr_left (fun a _ => toUpper_toUpper a)
      · rw [if_neg hn] at h1
        by_cases hw : f = "vendor_name"
        · rw [if_pos hw] at h1
          have hu : u = Value.str (pyTitle v) := by
            have := congrArg Prod.fst h1
            simp at this
            exact this.symm
          subst hu
          unfold IsStringForm at h2
          rw [h2]
          unfold validate_field
          have ht : ¬ (pyTitle v).isEmpty = true := by
            simp only [List.isEmpty_iff] at hv ⊢
            intro hh
            apply hv
            have hlen := titleAux_length v false
            rw [pyTitle] at hh
            rw [hh] at hlen
            simpa using (List.length_eq_zero.mp hlen.symm)
          rw [if_neg ht, if_neg ha, if_neg hd, if_neg hn, if_pos hw]
          simp only [Option.some.injEq, Value.str.injEq]
          exact titleAux_titleAux v false
        · rw [if_neg hw] at h1
          have hu : u = Value.str v := by
            have := congrArg Prod.fst h1
            simp at this
            exact this.symm
          subst hu
          unfold IsStringForm at h2
          rw [h2]
          unfold validate_field
          rw [if_neg hv, if_neg ha, if_neg hd, if_neg hn, if_neg hw]

theorem c9_validate_idempotent_witness :
    (validate_field "invoice_number" ['i', 'n', 'v', '-', '1']).1
        = some (Value.str ['I', 'N', 'V', '-', '1']) ∧
    (validate_field "invoice_number" ['I', 'N', 'V', '-', '1']).1
        = some (Value.str ['I', 'N', 'V', '-', '1']) :=
  ⟨by decide,
   c9_validate_idempotent "invoice_number" ['i', 'n', 'v', '-', '1']
     (Value.str ['I', 'N', 'V', '-', '1']) (9/10) ['I', 'N', 'V', '-', '1']
     (by decide) rfl⟩

/-- Claim C10 (counterexample): `validate_field` is total on string inputs,
but its emitted confidence is not always in {0.5, 0.6, 0.7, 0.8, 0.9}: an
unparsable amount (or any falsy value) is dropped with confidence 0.0. -/
theorem c10_confidence_counterexample :
    validate_field "total" ['a', 'b', 'c'] = (none, 0) ∧
    (0 : ℚ) ∉ ([1/2, 3/5, 7/10, 4/5, 9/10] : List ℚ) := by
  constructor
  · decide
  · decide

/-- Claim C10 (amended): `validate_field` is total on string inputs and
every confidence it emits lies in {0.0, 0.5, 0.6, 0.7, 0.8, 0.9};
confidence 0.0 occurs exactly for dropped candidates (falsy values and
unparsable amounts), so every confidence attached to a retained value lies
in {0.5, 0.6, 0.7, 0.8, 0.9} and the exception fallback at confidence 0.3
is unreachable. -/
theorem c10_confidence_range (f : String) (v : List Char) :
    (validate_field f v).2 ∈ ([0, 1/2, 3/5, 7/10, 4/5, 9/10] : List ℚ) ∧
    ((validate_field f v).1 ≠ none →
      (validate_field f v).2 ∈ ([1/2, 3/5, 7/10, 4/5, 9/10] : List ℚ)) := by
  unfold validate_field
  by_cases hv : v.isEmpty
  · rw [if_pos hv]
    exact ⟨by norm_num, fun h => absurd rfl h⟩
  rw [if_neg hv]
  by_cases ha : f ∈ amountFields
  · rw [if_pos ha]
    cases hc : clean_number v with
    | none => exact ⟨by norm_num, fun h => absurd rfl h⟩
    | some q => exact ⟨by norm_num, fun _ => by norm_num⟩
  rw [if_neg ha]
  by_cases hd : f ∈ dateFields
  · rw [if_pos hd]
    by_cases hm : rematch false false dateShapeRE v = true
    · rw [if_pos hm]
      exact ⟨by norm_num, fun _ => by norm_num⟩
    · rw [if_neg hm]
      exact ⟨by norm_num, fun _ => by norm_num⟩
  rw [if_neg hd]
  by_cases hn : f = "invoice_number"
  · rw [if_pos hn]
    exact ⟨by norm_num, fun _ => by norm_num⟩
  rw [if_neg hn]
  by_cases hw : f = "vendor_name"
  · rw [if_pos hw]
    exact ⟨by norm_num, fun _ => by norm_num⟩
  rw [if_neg hw]
  exact ⟨by norm_num, fun _ => by norm_num⟩

theorem c10_confidence_range_witness :
    (validate_field "invoice_number" ['a']).2
        ∈ ([0, 1/2, 3/5, 7/10, 4/5, 9/10] : List ℚ) ∧
    (validate_field "invoice_number" ['a']).2
        ∈ ([1/2, 3/5, 7/10, 4/5, 9/10] : List ℚ) :=
  ⟨(c10_confidence_range "invoice_number" ['a']).1,
   (c10_confidence_range "invoice_number" ['a']).2 (by decide)⟩

/-- Claim C2: for every validated record (whose `line_items` entry, if any,
is a line-item list or falsy, as the pipeline always produces),
`validate_mathematics` sets `calculations_correct` equal to
`subtotal_tax_total_match`, regardless of `line_items_sum_match`. -/
theorem c2_calculations_correct (data : List (String × Value))
    (h : LineItemsTyped data) :
    (validate_mathematics data).calculations_correct
      = (validate_mathematics data).subtotal_tax_total_match := by
  unfold LineItemsTyped at h
  unfold validate_mathematics
  split
  · split
    · rfl
    · split <;> rfl
    · rename_i s heq
      rw [heq] at h
      rw [if_pos h]
    · rename_i q heq
      rw [heq] at h
      rw [if_pos h]
  · rfl

theorem c2_calculations_correct_witness :
    (validate_mathematics [("subtotal", Value.num 0)]).calculations_correct
      = (validate_mathematics [("subtotal", Value.num 0)]).subtotal_tax_total_match :=
  c2_calculations_correct [("subtotal", Value.num 0)]
    (by unfold LineItemsTyped; exact trivial)

theorem rhe_le {y : ℚ} {n : ℤ} (h : y ≤ (n : ℚ)) : rhe y ≤ n := by
  have hf : ⌊y⌋ ≤ n := by
    have h1 := Int.floor_le_floor h
    rwa [Int.floor_intCast] at h1
  have hfl : (⌊y⌋ : ℚ) ≤ y := Int.floor_le y
  unfold rhe
  split_ifs with h1 h2 h3
  · exact hf
  · have hlt : (⌊y⌋ : ℚ) < (n : ℚ) := by linarith
    have : ⌊y⌋ < n := by exact_mod_cast hlt
    omega
  · exact hf
  · have heq : y - ⌊y⌋ = 1/2 := le_antisymm (not_lt.mp h2) (not_lt.mp h1)
    have hlt : (⌊y⌋ : ℚ) < (n : ℚ) := by linarith
    have : ⌊y⌋ < n := by exact_mod_cast hlt
    omega

theorem penalty_eq_count (fc : List (String × ℚ)) :
    (requiredFields.map (fun f => if fcHasKey fc f then (0 : ℚ) else 1/20)).sum
      = ((requiredFields.filter (fun f => !(fcHasKey fc f))).length : ℚ) * (1/20) := by
  unfold requiredFields
  cases h1 : fcHasKey fc "invoice_number" <;> cases h2 : fcHasKey fc "invoice_date" <;>
    cases h3 : fcHasKey fc "total" <;> cases h4 : fcHasKey fc "vendor_name" <;>
      simp [h1, h2, h3, h4, List.filter] <;> norm_num

theorem round2_pymin_le_one (x : ℚ) : round2 (pymin 1 x) ≤ 1 := by
  unfold round2
  have hmin : pymin 1 x ≤ 1 := by
    unfold pymin
    split_ifs with hm
    · exact le_refl 1
    · linarith [not_le.mp hm]
  have hmul : pymin 1 x * 100 ≤ ((100 : ℤ) : ℚ) := by
    push_cast
    nlinarith [hmin]
  have hr := rhe_le hmul
  rw [div_le_one (by norm_num : (0:ℚ) < 100)]
  exact_mod_cast hr

/-- Claim C7 (counterexample): the overall confidence is not clamped below
at 0 — a confidence map holding only `line_items` at 0.0 with failed
arithmetic validation yields −0.2, a negative overall confidence. -/
theorem c7_overall_confidence_counterexample :
    calculate_overall_confidence [("line_items", 0)] ⟨false, false, false⟩ = -(1/5) ∧
    calculate_overall_confidence [("line_items", 0)] ⟨false, false, false⟩ < 0 := by
  constructor
  · decide
  · decide

/-- Claim C7 (amended): for a non-empty confidence map the overall
confidence equals the per-field average, plus 0.10 when
`calculations_correct`, minus 0.05 per required field absent from the map,
capped above at 1.0 and rounded to two decimals — but only capped above:
the result is at most 1 yet can be negative.  An empty map gives exactly
0.0. -/
theorem c7_overall_confidence (fc : List (String × ℚ)) (mv : MathValidation) :
    calculate_overall_confidence fc mv ≤ 1 ∧
    (fc = [] → calculate_overall_confidence fc mv = 0) ∧
    (fc ≠ [] → calculate_overall_confidence fc mv
        = round2 (pymin 1 ((fc.map (fun p => p.2)).sum / (fc.length : ℚ)
            + (if mv.calculations_correct then 1/10 else 0)
            - ((requiredFields.filter (fun f => !(fcHasKey fc f))).length : ℚ)
              * (1/20)))) := by
  refine ⟨?_, ?_, ?_⟩
  · unfold calculate_overall_confidence
    by_cases he : fc.isEmpty = true
    · rw [if_pos he]; norm_num
    · rw [if_neg he]
      exact round2_pymin_le_one _
  · intro he
    unfold calculate_overall_confidence
    rw [if_pos (by simp [he])]
  · intro hne
    unfold calculate_overall_confidence
    rw [if_neg (by simpa [List.isEmpty_iff] using hne)]
    rw [penalty_eq_count]

theorem c7_overall_confidence_witness :
    calculate_overall_confidence [("x", (1:ℚ)/2)] ⟨false, false, false⟩ ≤ 1 ∧
    calculate_overall_confidence [("x", (1:ℚ)/2)] ⟨false, false, false⟩
      = round2 (pymin 1 (([("x", (1:ℚ)/2)].map (fun p => p.2)).sum
          / (([("x", (1:ℚ)/2)] : List (String × ℚ)).length : ℚ)
          + (if (⟨false, false, false⟩ : MathValidation).calculations_correct
             then 1/10 else 0)
          - ((requiredFields.filter
                (fun f => !(fcHasKey [("x", (1:ℚ)/2)] f))).length : ℚ) * (1/20))) :=
  ⟨(c7_overall_confidence [("x", (1:ℚ)/2)] ⟨false, false, false⟩).1,
   (c7_overall_confidence [("x", (1:ℚ)/2)] ⟨false, false, false⟩).2.2 (by simp)⟩

theorem validateCands_keys (l : List (String × List Char)) :
    ((validateCands l).1).map Prod.fst = ((validateCands l).2).map Prod.fst := by
  induction l with
  | nil => rfl
  | cons p rest ih =>
    obtain ⟨f, v⟩ := p
    simp only [validateCands]
    by_cases hf : f = "line_items"
    · rw [if_pos hf]
      simpa using ih
    · rw [if_neg hf]
      cases hvf : validate_field f v with
      | mk o c =>
        cases o with
        | some cv => simpa using ih
        | none => exact ih

theorem validateCands_keys_mem (l : List (String × List Char)) :
    ∀ p ∈ (validateCands l).2, p.1 ∈ l.map Prod.fst := by
  induction l with
  | nil => intro p hp; cases hp
  | cons q rest ih =>
    obtain ⟨f, v⟩ := q
    intro p hp
    simp only [validateCands] at hp
    by_cases hf : f = "line_items"
    · rw [if_pos hf] at hp
      rcases List.mem_cons.mp hp with h | h
      · rw [h]; simp
      · simp only [List.map_cons]
        exact List.mem_cons_of_mem _ (ih p h)
    · rw [if_neg hf] at hp
      cases hvf : validate_field f v with
      | mk o c =>
        rw [hvf] at hp
        cases o with
        | some cv =>
          rcases List.mem_cons.mp hp with h | h
          · rw [h]; simp
          · simp only [List.map_cons]
            exact List.mem_cons_of_mem _ (ih p h)
        | none =>
          simp only [List.map_cons]
          exact List.mem_cons_of_mem _ (ih p hp)

theorem lookup_append_last {v : ℚ} (l1 : List (String × ℚ)) (k : String)
    (h : ∀ p ∈ l1, p.1 ≠ k) : List.lookup k (l1 ++ [(k, v)]) = some v := by
  induction l1 with
  | nil => simp [List.lookup]
  | cons p r ih =>
    have hp : ¬ (k == p.1) = true := by
      simp only [beq_iff_eq]
      exact fun he => (h p (List.mem_cons_self p r)) he.symm
    simp only [List.cons_append, List.lookup, hp]
    exact ih (fun q hq => h q (List.mem_cons_of_mem p hq))

/-- Claim C8: the validated record and the confidence map always carry
exactly the same keys in the same order; when line items are present they
appear under the `line_items` key with confidence 0.8 for a non-empty list
and 0.0 for an empty one. -/
theorem c8_key_sets (d : ExtractOutput) :
    ((validate_extraction d).extracted_data.map Prod.fst
        = (validate_extraction d).field_confidence.map Prod.fst) ∧
    (∀ l, d.line_items = some l → "line_items" ∉ d.cands.map Prod.fst →
      List.lookup "line_items" (validate_extraction d).field_confidence
        = some (if l.isEmpty then (0 : ℚ) else 4/5)) := by
  constructor
  · unfold validate_extraction
    cases hl : d.line_items with
    | none => simpa using validateCands_keys d.cands
    | some l => simp [validateCands_keys d.cands]
  · intro l hl hmem
    unfold validate_extraction
    rw [hl]
    apply lookup_append_last
    intro p hp hpk
    apply hmem
    rw [← hpk]
    exact validateCands_keys_mem d.cands p hp

theorem c8_key_sets_witness :
    ((validate_extraction ⟨[("total", ['5'])], some []⟩).extracted_data.map Prod.fst
        = (validate_extraction ⟨[("total", ['5'])], some []⟩).field_confidence.map
            Prod.fst) ∧
    List.lookup "line_items"
        (validate_extraction ⟨[("total", ['5'])], some []⟩).field_confidence
      = some (if ([] : List LineItem).isEmpty then (0 : ℚ) else 4/5) :=
  ⟨(c8_key_sets ⟨[("total", ['5'])], some []⟩).1,
   (c8_key_sets ⟨[("total", ['5'])], some []⟩).2 [] rfl (by decide)⟩

/-- Claim C1 (counterexample): on the spec's example text the pipeline does
*not* produce `total = 110.00` with passing arithmetic checks and
confidence ≥ 0.8 — the `total` pattern's leftmost match lies inside
"subtotal: $100.00", so the extracted total is 100.00, both
`subtotal_tax_total_match` and `calculations_correct` are false, and the
overall confidence is 0.78 < 0.8. -/
theorem c1_example_counterexample :
    ((extractAndValidate c1text).bind
        (fun r => r.extracted_data.lookup "total") = some (Value.num 100)) ∧
    ((extractAndValidate c1text).map
        (fun r => r.math_validation.subtotal_tax_total_match) = some false) ∧
    ((extractAndValidate c1text).map
        (fun r => r.math_validation.calculations_correct) = some false) ∧
    ((extractAndValidate c1text).map
        (fun r => decide ((4:ℚ)/5 ≤ r.overall_confidence)) = some false) ∧
    Value.num 100 ≠ Value.num 110 := by
  refine ⟨by decide, by decide, by decide, by decide, by decide⟩

/-- Claim C1 (amended): on the spec's example text, extraction followed by
validation yields exactly `c1record`: `invoice_number = "INV-2024-001"` and
`invoice_date = "12/15/2024"` as claimed, but `total = 100.00` (the
`total` pattern first matches inside "Subtotal: $100.00"),
`subtotal_tax_total_match = false`, `calculations_correct = false`, and
overall confidence 0.78. -/
theorem c1_example_record : extractAndValidate c1text = some c1record := by
  decide
